import Mathlib

/-!
# Verification of the order-barcode fulfillment app (src/main.js)

A shallow embedding of the logic of `src/main.js`: the order/parts data
model, the persistence gateway (`loadDatabase`), the CSV import
normalizer (the `complete` callback of `showImport`), and the
screen-driven fulfillment state machine (`handleOrderDetected`,
`handlePartDetected`, `showSummary`'s commit button, the scanner
start/stop lifecycle and the login/logout handlers).

Conventions of the embedding:
* DOM rendering is dropped; each screen becomes a constructor of `Screen`
  and each button/event handler becomes an `Action` interpreted by `step`.
* `alert(...)` calls become `Outcome` values; `console.warn`/`console.error`
  are modelled where a claim needs them.
* `localStorage` becomes the `persistedDb` / `persistedUser` fields of
  `FullState`; `JSON.parse` of the stored database is an oracle argument
  (`Option (Except String Database)`: `none` = no stored entry,
  `some (.error e)` = stored but unparsable, `some (.ok db)` = parsed).
* JavaScript object references: `state.currentOrder` aliases the `Order`
  object that `find` returned, i.e. the first order in `state.db.orders`
  with the matching `orderId`; the in-place mutation performed by the
  pack button is modelled by updating both the snapshot and the first
  matching entry of the order list (`setPackedFirst`).
* The camera/Quagga availability check is a boolean parameter `cam`,
  constant during a run; `quaggaActive` is the `quaggaActive` flag.
-/

namespace Barcoda

/-- `String.prototype.trim`: strip leading and trailing whitespace.
This is a kernel-reducible model (via `List.dropWhile`, with
`Char.isWhitespace` as the whitespace class) of the JavaScript method;
`String.trim` of the Lean core library computes the same string but is
defined by well-founded recursion on byte positions, which concrete
witnesses could not evaluate. -/
def jsTrim (s : String) : String :=
  ⟨((s.toList.dropWhile Char.isWhitespace).reverse.dropWhile
      Char.isWhitespace).reverse⟩

/-- `String.prototype.toLowerCase`, kernel-reducible model (charwise
`Char.toLower`). -/
def jsToLower (s : String) : String :=
  ⟨s.toList.map Char.toLower⟩

/-- An order record, as stored in `state.db.orders` (src/main.js).
The descriptive fields are `Option String` because the built-in sample
order omits them entirely while the CSV importer always sets them. -/
structure Order where
  orderId : String
  parts : List String
  customer : Option String
  project : Option String
  supplyDate : Option String
  status : String
  packedAt : Option String
  packedBy : Option String
deriving DecidableEq, Repr

/-- The persisted database: `{ orders: [...] }`. -/
structure Database where
  orders : List Order
deriving DecidableEq, Repr

/-- The built-in sample order (src/main.js lines 36-46 and 133-143). -/
def sampleOrder : Order :=
  { orderId := "ORDER001"
  , parts := ["PART001", "PART002", "PART003"]
  , customer := none
  , project := none
  , supplyDate := none
  , status := "Pending"
  , packedAt := none
  , packedBy := none }

/-- The built-in sample database: one order with three parts. -/
def sampleDb : Database := { orders := [sampleOrder] }

/-- `loadDatabase` (src/main.js lines 25-49).  The argument is the oracle
for `localStorage.getItem` + `JSON.parse`: `none` when no entry is stored,
`some (.ok db)` when the stored string parses, `some (.error e)` when
parsing throws.  On a parse failure the code assigns `{ orders: [] }`;
only when no entry exists does it install the sample database. -/
def loadDatabase : Option (Except String Database) → Database
  | some (Except.ok db) => db
  | some (Except.error _) => { orders := [] }
  | none => sampleDb

/-- Whether `loadDatabase` writes to the developer console
(`console.warn` is reached exactly in the parse-failure branch). -/
def loadDatabaseWarns : Option (Except String Database) → Bool
  | some (Except.error _) => true
  | _ => false

/-- The screens rendered by the `show*` functions of src/main.js. -/
inductive Screen
  | login
  | home
  | importCsv
  | dbView
  | orderScan
  | partScan
  | summary
deriving DecidableEq, Repr

/-- The mutable application state: the global `state` object of
src/main.js plus the screen currently rendered.  `currentOrder` is the
snapshot of the aliased order object (see module docstring). -/
structure AppState where
  user : Option String
  db : Database
  currentOrder : Option Order
  scannedParts : List String
  screen : Screen
deriving DecidableEq, Repr

/-- Application state together with the persistence mirror
(`localStorage`) and the scanner activity flag. -/
structure FullState where
  app : AppState
  persistedDb : Option Database
  persistedUser : Option String
  quaggaActive : Bool
deriving DecidableEq, Repr

/-- User-visible outcome of one event: `silent` when no alert fires,
otherwise which alert message is shown. -/
inductive Outcome
  | silent
  | emptyInput
  | orderNotFound (id : String)
  | orderAlreadyPacked
  | duplicatePart (p : String)
  | partNotInOrder (p : String)
  | packedOk
  | sampleLoaded
  | importOk
deriving DecidableEq, Repr

/-- `startScanner` (src/main.js lines 416-472), state effect only: sets
`quaggaActive = true` when the camera/Quagga environment is available,
otherwise returns without touching the flag. -/
def startScanner (cam : Bool) (fs : FullState) : FullState :=
  if cam then { fs with quaggaActive := true } else fs

/-- `stopScanner` (src/main.js lines 475-480): unconditionally clears the
`quaggaActive` flag. -/
def stopScanner (fs : FullState) : FullState :=
  { fs with quaggaActive := false }

/-- `handleOrderDetected` (src/main.js lines 249-265).  Looks the code up
by exact `orderId` equality (`Array.prototype.find`); on failure or on an
already-packed order it alerts and re-renders the order-scan screen
(which restarts the scanner); on success it sets `currentOrder`, clears
`scannedParts` and renders the part-scan screen (which also starts the
scanner). -/
def handleOrderDetected (cam : Bool) (fs : FullState) (orderId : String) :
    FullState × Outcome :=
  match fs.app.db.orders.find? (fun o => o.orderId == orderId) with
  | none =>
      (startScanner cam { fs with app := { fs.app with screen := Screen.orderScan } },
       Outcome.orderNotFound orderId)
  | some o =>
      if o.status == "Packed" then
        (startScanner cam { fs with app := { fs.app with screen := Screen.orderScan } },
         Outcome.orderAlreadyPacked)
      else
        (startScanner cam
          { fs with app := { fs.app with
              currentOrder := some o
            , scannedParts := []
            , screen := Screen.partScan } },
         Outcome.silent)

/-- `handlePartDetected` (src/main.js lines 325-345).  Trims the code;
empty input is a no-op; a code already scanned alerts `DuplicatePart`;
a code not in `currentOrder.parts` alerts `PartNotInOrder`; otherwise the
code is appended and, when the scanned count equals the raw length of
`currentOrder.parts`, the scanner is stopped and the summary screen is
shown.  The `currentOrder = none` branch is unreachable from the part-scan
screen, where this handler is installed. -/
def handlePartDetected (fs : FullState) (partId0 : String) :
    FullState × Outcome :=
  let partId := jsTrim partId0
  if partId == "" then (fs, Outcome.silent)
  else if fs.app.scannedParts.contains partId then
    (fs, Outcome.duplicatePart partId)
  else
    match fs.app.currentOrder with
    | none => (fs, Outcome.silent)
    | some o =>
      if !(o.parts.contains partId) then (fs, Outcome.partNotInOrder partId)
      else
        let scanned := fs.app.scannedParts ++ [partId]
        if scanned.length == o.parts.length then
          ({ fs with
              app := { fs.app with scannedParts := scanned, screen := Screen.summary }
            , quaggaActive := false },
           Outcome.silent)
        else
          ({ fs with app := { fs.app with scannedParts := scanned } }, Outcome.silent)

/-- The missing-parts list computed by `showSummary` (src/main.js line
352): `currentOrder.parts.filter(p => !scannedParts.includes(p))`. -/
def missingParts (o : Order) (scanned : List String) : List String :=
  o.parts.filter (fun p => !(scanned.contains p))

/-- The in-place mutation of the pack button (src/main.js lines 372-374)
applied to one order object. -/
def packOrder (t : String) (u : Option String) (o : Order) : Order :=
  { o with status := "Packed", packedAt := some t, packedBy := u }

/-- Packing mutates the object `find` returned, i.e. the first order with
the matching `orderId`; later orders with the same id are untouched. -/
def setPackedFirst (oid t : String) (u : Option String) : List Order → List Order
  | [] => []
  | o :: rest =>
      if o.orderId == oid then packOrder t u o :: rest
      else o :: setPackedFirst oid t u rest

/-- The `markPackedBtn` click handler on the summary screen (src/main.js
lines 361-379).  The button is rendered `disabled` whenever the missing
list is non-empty, so a click is only effective with no missing parts;
`t` is `new Date().toISOString()`.  On success the order's status fields
are set, the database is persisted and the home screen is shown. -/
def doMarkPacked (fs : FullState) (t : String) : FullState × Outcome :=
  match fs.app.currentOrder with
  | none => (fs, Outcome.silent)
  | some o =>
    if (missingParts o fs.app.scannedParts).isEmpty then
      let o' := packOrder t fs.app.user o
      let db' : Database :=
        { orders := setPackedFirst o.orderId t fs.app.user fs.app.db.orders }
      ({ fs with
          app := { fs.app with db := db', currentOrder := some o', screen := Screen.home }
        , persistedDb := some db' },
       Outcome.packedOk)
    else (fs, Outcome.silent)

/-- The `loginBtn` click handler (src/main.js lines 82-91): trims the
input, rejects an empty result with an alert, otherwise sets and
persists the user and shows the home screen. -/
def doLogin (fs : FullState) (name : String) : FullState × Outcome :=
  let username := jsTrim name
  if username == "" then (fs, Outcome.emptyInput)
  else
    ({ fs with
        app := { fs.app with user := some username, screen := Screen.home }
      , persistedUser := some username },
     Outcome.silent)

/-- The `logoutBtn` click handler (src/main.js lines 110-114): clears the
in-memory user and the persisted user and shows the login screen.  The
database (in memory and persisted) is untouched. -/
def doLogout (fs : FullState) : FullState × Outcome :=
  ({ fs with
      app := { fs.app with user := none, screen := Screen.login }
    , persistedUser := none },
   Outcome.silent)

/-! ## CSV import (the `complete` callback of `showImport`, src/main.js
lines 154-204)

A parsed row is an association list from column header to cell value,
preserving column order (`Object.keys` order).  `row[k]` for an absent or
undefined key `k` is modelled by `Option`; JavaScript string falsiness
(`undefined` or `""`) by `truthy`. -/

/-- A parsed CSV row: column header ↦ cell value, in column order. -/
abbrev Row := List (String × String)

/-- `row[k]` where `k` itself may be undefined. -/
def rowGet (row : Row) : Option String → Option String
  | none => none
  | some key => (row.find? (fun kv => kv.1 == key)).map (fun kv => kv.2)

/-- `Object.keys(row)`. -/
def rowKeys (row : Row) : List String := row.map (fun kv => kv.1)

/-- JavaScript truthiness of a possibly-undefined string. -/
def truthy : Option String → Bool
  | none => false
  | some s => !(s == "")

/-- `String.prototype.includes` on character lists. -/
def charsContain (pat : List Char) : List Char → Bool
  | [] => pat.isEmpty
  | c :: rest => pat.isPrefixOf (c :: rest) || charsContain pat rest

/-- `hay.includes(pat)` for strings. -/
def strIncludes (hay pat : String) : Bool := charsContain pat.toList hay.toList

/-- `findKey` (src/main.js lines 161-166): first key of the header row
whose lowercasing contains one of the patterns. -/
def findKey (keys : List String) (patterns : List String) : Option String :=
  keys.find? (fun k => patterns.any (fun p => strIncludes (jsToLower k) p))

/-- The order-id column chosen for an import (src/main.js line 167). -/
def importOrderKey (rows : List Row) : Option String :=
  findKey (rowKeys (rows.headD [])) ["order", "מספר הזמנה"]

/-- The part-id column chosen for an import (src/main.js line 168). -/
def importPartKey (rows : List Row) : Option String :=
  findKey (rowKeys (rows.headD [])) ["partid", "part_id", "part", "מספר חלק"]

/-- The customer column (src/main.js line 169). -/
def importCustomerKey (rows : List Row) : Option String :=
  findKey (rowKeys (rows.headD [])) ["customer", "לקוח"]

/-- The project column (src/main.js line 170). -/
def importProjectKey (rows : List Row) : Option String :=
  findKey (rowKeys (rows.headD [])) ["project", "פרויקט"]

/-- The supply-date column (src/main.js line 171). -/
def importDateKey (rows : List Row) : Option String :=
  findKey (rowKeys (rows.headD [])) ["date", "תאריך"]

/-- The order-id/part-id resolution of one row (src/main.js lines
173-183): read the detected columns; fall back to the first/second
column of the row when the read value is falsy (the guard
`(!orderId || !partUid) && !orderId` simplifies to `!orderId`, and
symmetrically for `partUid`); trim the values that are truthy; skip the
row (`none`) unless both are truthy afterwards. -/
def resolveIds (orderKey partKey : Option String) (row : Row) :
    Option (String × String) :=
  let orderId0 := rowGet row orderKey
  let partUid0 := rowGet row partKey
  let ks := rowKeys row
  let orderId1 := if !(truthy orderId0) && decide (1 ≤ ks.length)
                  then rowGet row ks[0]? else orderId0
  let partUid1 := if !(truthy partUid0) && decide (2 ≤ ks.length)
                  then rowGet row ks[1]? else partUid0
  let orderId2 := if truthy orderId1 then orderId1.map jsTrim else orderId1
  let partUid2 := if truthy partUid1 then partUid1.map jsTrim else partUid1
  if truthy orderId2 && truthy partUid2 then
    some (orderId2.getD "", partUid2.getD "")
  else none

/-- `row[k] ? row[k].toString().trim() : ''`. -/
def cellOr (v : Option String) : String :=
  if truthy v then jsTrim (v.getD "") else ""

/-- The fresh order created for a first-seen order id (src/main.js lines
184-195); descriptive fields come from that first row. -/
def mkImportOrder (oid : String) (row : Row)
    (customerKey projectKey dateKey : Option String) : Order :=
  { orderId := oid
  , parts := []
  , customer := some (cellOr (rowGet row customerKey))
  , project := some (cellOr (rowGet row projectKey))
  , supplyDate := some (cellOr (rowGet row dateKey))
  , status := "Pending"
  , packedAt := none
  , packedBy := none }

/-- Whether `ordersMap` already has an entry for this order id. -/
def containsOrder (oid : String) (orders : List Order) : Bool :=
  orders.any (fun o => o.orderId == oid)

/-- `ordersMap[orderId].parts.push(partUid)`: append the part to the
first (unique, by construction) order with this id. -/
def pushPart (oid p : String) : List Order → List Order
  | [] => []
  | o :: rest =>
      if o.orderId == oid then { o with parts := o.parts ++ [p] } :: rest
      else o :: pushPart oid p rest

/-- The per-row body of `data.forEach` (src/main.js lines 172-197), on the
insertion-ordered `ordersMap` represented as a list. -/
def processRow (orderKey partKey customerKey projectKey dateKey : Option String)
    (orders : List Order) (row : Row) : List Order :=
  match resolveIds orderKey partKey row with
  | none => orders
  | some (oid, pid) =>
      let orders1 :=
        if containsOrder oid orders then orders
        else orders ++ [mkImportOrder oid row customerKey projectKey dateKey]
      pushPart oid pid orders1

/-- The whole `complete` callback, up to the database assignment
(src/main.js lines 154-200): detect columns from the first row, fold the
rows into the ordersMap, and take `Object.values` (insertion order). -/
def normalizeRows (rows : List Row) : Database :=
  { orders :=
      rows.foldl
        (processRow (importOrderKey rows) (importPartKey rows)
          (importCustomerKey rows) (importProjectKey rows) (importDateKey rows))
        [] }

/-! ## Events and the step function -/

/-- One user or scan-source event, i.e. one registered handler firing. -/
inductive Action
  | loginSubmit (name : String)
  | logoutClick
  | scanOrderClick
  | importClick
  | dbClick
  | backFromDb
  | backFromImport
  | loadSampleClick
  | csvLoaded (rows : List Row)
  | manualOrder (s : String)
  | cancelOrderScan
  | manualPart (s : String)
  | cancelParts
  | backFromSummary
  | markPackedClick (t : String)
  | scannerDetect (code : String)
deriving DecidableEq, Repr

/-- Interpret one event against the current state.  Each button handler
exists only on the screen that rendered it, so events are guarded by the
current screen (firing a handler of another screen is a no-op).
`scannerDetect` is the `Quagga.onDetected` callback (src/main.js lines
463-471): discarded unless `quaggaActive`, discarded for a falsy code,
otherwise it deactivates + stops the scanner and dispatches to the
handler the current screen registered. -/
def step (cam : Bool) (fs : FullState) : Action → FullState × Outcome
  | Action.loginSubmit name =>
      if fs.app.screen = Screen.login then doLogin fs name else (fs, Outcome.silent)
  | Action.logoutClick =>
      if fs.app.screen = Screen.home then doLogout fs else (fs, Outcome.silent)
  | Action.scanOrderClick =>
      if fs.app.screen = Screen.home then
        (startScanner cam { fs with app := { fs.app with screen := Screen.orderScan } },
         Outcome.silent)
      else (fs, Outcome.silent)
  | Action.importClick =>
      if fs.app.screen = Screen.home then
        ({ fs with app := { fs.app with screen := Screen.importCsv } }, Outcome.silent)
      else (fs, Outcome.silent)
  | Action.dbClick =>
      if fs.app.screen = Screen.home then
        ({ fs with app := { fs.app with screen := Screen.dbView } }, Outcome.silent)
      else (fs, Outcome.silent)
  | Action.backFromDb =>
      if fs.app.screen = Screen.dbView then
        ({ fs with app := { fs.app with screen := Screen.home } }, Outcome.silent)
      else (fs, Outcome.silent)
  | Action.backFromImport =>
      if fs.app.screen = Screen.importCsv then
        ({ fs with app := { fs.app with screen := Screen.home } }, Outcome.silent)
      else (fs, Outcome.silent)
  | Action.loadSampleClick =>
      if fs.app.screen = Screen.importCsv then
        ({ fs with
            app := { fs.app with db := sampleDb, screen := Screen.home }
          , persistedDb := some sampleDb },
         Outcome.sampleLoaded)
      else (fs, Outcome.silent)
  | Action.csvLoaded rows =>
      if fs.app.screen = Screen.importCsv then
        let db' := normalizeRows rows
        ({ fs with
            app := { fs.app with db := db', screen := Screen.home }
          , persistedDb := some db' },
         Outcome.importOk)
      else (fs, Outcome.silent)
  | Action.manualOrder s =>
      if fs.app.screen = Screen.orderScan then
        let val := jsTrim s
        if val == "" then (fs, Outcome.emptyInput)
        else handleOrderDetected cam (stopScanner fs) val
      else (fs, Outcome.silent)
  | Action.cancelOrderScan =>
      if fs.app.screen = Screen.orderScan then
        ({ stopScanner fs with app := { fs.app with screen := Screen.home } },
         Outcome.silent)
      else (fs, Outcome.silent)
  | Action.manualPart s =>
      if fs.app.screen = Screen.partScan then
        let val := jsTrim s
        if val == "" then (fs, Outcome.emptyInput)
        else handlePartDetected fs val
      else (fs, Outcome.silent)
  | Action.cancelParts =>
      if fs.app.screen = Screen.partScan then
        (startScanner cam
          { stopScanner fs with app := { fs.app with screen := Screen.orderScan } },
         Outcome.silent)
      else (fs, Outcome.silent)
  | Action.backFromSummary =>
      if fs.app.screen = Screen.summary then
        ({ fs with app := { fs.app with screen := Screen.home } }, Outcome.silent)
      else (fs, Outcome.silent)
  | Action.markPackedClick t =>
      if fs.app.screen = Screen.summary then doMarkPacked fs t else (fs, Outcome.silent)
  | Action.scannerDetect code =>
      if fs.quaggaActive = false then (fs, Outcome.silent)
      else if code == "" then (fs, Outcome.silent)
      else
        match fs.app.screen with
        | Screen.orderScan => handleOrderDetected cam (stopScanner fs) code
        | Screen.partScan => handlePartDetected (stopScanner fs) code
        | _ => (stopScanner fs, Outcome.silent)

/-! ## Concrete fixture states used by witnesses and counterexamples -/

/-- A logged-in home state over the sample database. -/
def homeState : FullState :=
  { app := { user := some "Dana", db := sampleDb, currentOrder := none
           , scannedParts := [], screen := Screen.home }
  , persistedDb := some sampleDb
  , persistedUser := some "Dana"
  , quaggaActive := false }

/-- The order-selection screen over the sample database, scanner active. -/
def orderScanState : FullState :=
  { app := { user := some "Dana", db := sampleDb, currentOrder := none
           , scannedParts := [], screen := Screen.orderScan }
  , persistedDb := some sampleDb
  , persistedUser := some "Dana"
  , quaggaActive := true }

/-- Part scanning of the sample order with one part already scanned. -/
def midScanState : FullState :=
  { app := { user := some "Dana", db := sampleDb, currentOrder := some sampleOrder
           , scannedParts := ["PART002"], screen := Screen.partScan }
  , persistedDb := some sampleDb
  , persistedUser := some "Dana"
  , quaggaActive := true }

/-- Part scanning of the sample order with nothing scanned yet. -/
def freshPartScanState : FullState :=
  { app := { user := some "Dana", db := sampleDb, currentOrder := some sampleOrder
           , scannedParts := [], screen := Screen.partScan }
  , persistedDb := some sampleDb
  , persistedUser := some "Dana"
  , quaggaActive := true }

/-- The summary screen of the sample order with all three parts scanned. -/
def summaryState : FullState :=
  { app := { user := some "Dana", db := sampleDb, currentOrder := some sampleOrder
           , scannedParts := ["PART002", "PART001", "PART003"], screen := Screen.summary }
  , persistedDb := some sampleDb
  , persistedUser := some "Dana"
  , quaggaActive := false }

/-- The CSV-import screen over the sample database. -/
def homeStateImport : FullState :=
  { app := { user := some "Dana", db := sampleDb, currentOrder := none
           , scannedParts := [], screen := Screen.importCsv }
  , persistedDb := some sampleDb
  , persistedUser := some "Dana"
  , quaggaActive := false }

/-- The login screen with an empty state. -/
def loginState : FullState :=
  { app := { user := none, db := sampleDb, currentOrder := none
           , scannedParts := [], screen := Screen.login }
  , persistedDb := some sampleDb
  , persistedUser := none
  , quaggaActive := false }

/-- An order whose part list repeats the single distinct identifier. -/
def dupOrder : Order :=
  { orderId := "O1"
  , parts := ["P1", "P1"]
  , customer := none
  , project := none
  , supplyDate := none
  , status := "Pending"
  , packedAt := none
  , packedBy := none }

/-- Part scanning of `dupOrder` with nothing scanned yet. -/
def dupState : FullState :=
  { app := { user := some "Dana", db := { orders := [dupOrder] }
           , currentOrder := some dupOrder, scannedParts := [], screen := Screen.partScan }
  , persistedDb := some { orders := [dupOrder] }
  , persistedUser := some "Dana"
  , quaggaActive := false }

/-! ## C2: loadDatabase fallback behavior -/

/-- C2 counterexample: when the stored content fails to parse,
`loadDatabase` does not return the built-in sample order set; it returns
the empty database `{ orders := [] }` (src/main.js line 32), so the claim
that both the missing-entry case and the parse-failure case yield the
sample set is false. -/
theorem C2_counterexample :
    loadDatabase (some (Except.error "bad json")) = { orders := [] } ∧
    loadDatabase (some (Except.error "bad json")) ≠ sampleDb := by
  exact ⟨rfl, by decide⟩

/-- C2 (amended): `loadDatabase` returns the stored database when it
parses, the built-in sample set only when no stored database exists, and
an empty database on a parse failure; the parse failure is logged
(`console.warn`) while the missing-entry case is not. -/
theorem C2_loadDatabase_amended :
    (∀ db, loadDatabase (some (Except.ok db)) = db) ∧
    (∀ e, loadDatabase (some (Except.error e)) = { orders := [] } ∧
          loadDatabaseWarns (some (Except.error e)) = true) ∧
    loadDatabase none = sampleDb ∧
    loadDatabaseWarns none = false :=
  ⟨fun _ => rfl, fun _ => ⟨rfl, rfl⟩, rfl, rfl⟩

/-! ## C8: stale scan-source events are discarded -/

/-- C8: a detection event delivered after `stopScanner` (the
`quaggaActive` flag is false) is discarded by the guard at the top of the
`Quagga.onDetected` callback: the state is unchanged and no alert is
produced, for every state, camera capability and code. -/
theorem C8_stale_scan_discarded (cam : Bool) (fs : FullState) (code : String) :
    step cam (stopScanner fs) (Action.scannerDetect code) =
      (stopScanner fs, Outcome.silent) := by
  simp [step, stopScanner]

/-! ## C1: completion check counts the raw part list, not distinct ids -/

/-- C1 (code bug evidence): `dupOrder` has exactly one distinct part
identifier, yet after the first (and only possible) successful part
submission the machine stays in the part-scanning screen because the
completion check at src/main.js line 341 compares against the raw part
list length 2; the second submission of the same identifier is rejected
as a duplicate and leaves the state unchanged, so the summary screen is
unreachable for this order. -/
theorem C1_completion_check_eval :
    dupOrder.parts.dedup.length = 1 ∧
    (step false dupState (Action.manualPart "P1")).1.app.scannedParts = ["P1"] ∧
    (step false dupState (Action.manualPart "P1")).1.app.screen = Screen.partScan ∧
    (step false (step false dupState (Action.manualPart "P1")).1
        (Action.manualPart "P1")).2 = Outcome.duplicatePart "P1" ∧
    (step false (step false dupState (Action.manualPart "P1")).1
        (Action.manualPart "P1")).1 =
      (step false dupState (Action.manualPart "P1")).1 := by
  refine ⟨by decide, by decide, by decide, by decide, by decide⟩

/-! ## Helper lemmas about `jsTrim` and `dropWhile` -/

/-- `dropWhile` is idempotent. -/
theorem dropWhile_idem (p : Char → Bool) (l : List Char) :
    (l.dropWhile p).dropWhile p = l.dropWhile p := by
  induction l with
  | nil => rfl
  | cons c rest ih =>
    by_cases h : p c
    · simp [List.dropWhile_cons, h, ih]
    · simp [List.dropWhile_cons, h]

/-- A list fixed by `dropWhile p` stays fixed after its trailing block of
`p`-elements is removed. -/
theorem dropWhile_fix_revTrim (p : Char → Bool) (l : List Char)
    (h : l.dropWhile p = l) :
    ((l.reverse.dropWhile p).reverse).dropWhile p =
      (l.reverse.dropWhile p).reverse := by
  cases l with
  | nil => simp
  | cons c t =>
    have hc : p c = false := by
      by_contra hpc
      have hpc' : p c = true := by
        cases hcv : p c with
        | false => exact absurd hcv hpc
        | true => rfl
      rw [List.dropWhile_cons_of_pos hpc'] at h
      have hlen := congrArg List.length h
      have hsuff := (List.dropWhile_suffix (l := t) p).length_le
      simp at hlen
      omega
    rw [List.reverse_cons, List.dropWhile_append]
    by_cases hemp : (t.reverse.dropWhile p).isEmpty
    · simp only [hemp, if_pos]
      simp [List.dropWhile_cons, hc]
    · simp only [hemp, if_neg, Bool.false_eq_true, not_false_iff]
      rw [List.reverse_append, List.reverse_cons, List.reverse_nil,
        List.nil_append, List.singleton_append]
      rw [List.dropWhile_cons_of_neg (by simp [hc])]

/-- `jsTrim` is idempotent, as `String.prototype.trim` is. -/
theorem jsTrim_idem (s : String) : jsTrim (jsTrim s) = jsTrim s := by
  unfold jsTrim
  apply congrArg String.mk
  have htl : ∀ l : List Char, (String.mk l).toList = l := fun _ => rfl
  rw [htl]
  set p := Char.isWhitespace
  set A := s.toList.dropWhile p with hA
  have hAfix : A.dropWhile p = A := dropWhile_idem p s.toList
  have h1 : ((A.reverse.dropWhile p).reverse).dropWhile p =
      (A.reverse.dropWhile p).reverse := dropWhile_fix_revTrim p A hAfix
  rw [h1, List.reverse_reverse, dropWhile_idem]

/-! ## C4: cancelScan and the scan-progress reset -/

/-- C4 counterexample: cancelling part scanning does return to the
order-selection screen, but it does not discard the scan progress:
starting from `midScanState` (one part already scanned), after the cancel
click `scannedParts` still holds `"PART002"` and `currentOrder` still
references the sample order, contradicting the claim that both are
reset on cancel. -/
theorem C4_counterexample :
    (step true midScanState Action.cancelParts).1.app.screen = Screen.orderScan ∧
    (step true midScanState Action.cancelParts).1.app.scannedParts = ["PART002"] ∧
    (step true midScanState Action.cancelParts).1.app.scannedParts ≠ [] ∧
    (step true midScanState Action.cancelParts).1.app.currentOrder = some sampleOrder ∧
    (step true midScanState Action.cancelParts).1.app.currentOrder ≠ none := by
  refine ⟨by decide, by decide, by decide, by decide, by decide⟩

/-- C4 (amended): cancelling in the part-scanning screen returns to the
order-selection screen but leaves `scannedParts` and the `currentOrder`
reference untouched; the scan progress is instead reset to empty exactly
when a new order is successfully selected (`handleOrderDetected`
succeeding, which clears `scannedParts` and installs the new order). -/
theorem C4_cancel_keeps_progress (cam : Bool) (fs : FullState)
    (h : fs.app.screen = Screen.partScan) :
    ((step cam fs Action.cancelParts).1.app.screen = Screen.orderScan ∧
     (step cam fs Action.cancelParts).1.app.scannedParts = fs.app.scannedParts ∧
     (step cam fs Action.cancelParts).1.app.currentOrder = fs.app.currentOrder) ∧
    (∀ (cam2 : Bool) (fs2 : FullState) (code : String),
       (handleOrderDetected cam2 fs2 code).2 = Outcome.silent →
       (handleOrderDetected cam2 fs2 code).1.app.scannedParts = []) := by
  constructor
  · simp only [step, h, if_pos, startScanner, stopScanner]
    by_cases hcam : cam = true
    · simp [hcam]
    · simp [hcam]
  · intro cam2 fs2 code hsucc
    unfold handleOrderDetected at hsucc ⊢
    cases hfind : fs2.app.db.orders.find? (fun o => o.orderId == code) with
    | none => rw [hfind] at hsucc; simp at hsucc
    | some o =>
      rw [hfind] at hsucc
      dsimp only at hsucc ⊢
      by_cases hst : (o.status == "Packed") = true
      · rw [if_pos hst] at hsucc; simp at hsucc
      · rw [if_neg hst]
        unfold startScanner
        by_cases hcam : cam2 = true
        · simp [hcam]
        · simp [hcam]

/-- C4 witness: the amended cancel behavior at the concrete mid-scan
state. -/
theorem C4_cancel_keeps_progress_witness :
    midScanState.app.screen = Screen.partScan ∧
    (step true midScanState Action.cancelParts).1.app.scannedParts =
      midScanState.app.scannedParts :=
  ⟨rfl, (C4_cancel_keeps_progress true midScanState rfl).1.2.1⟩

/-! ## C5: order-code lookup and trimming -/

/-- C5 counterexample: a scan-source code is looked up exactly as
delivered, without trimming.  With the sample database on the
order-selection screen, the scanner delivering `" ORDER001 "` yields
`OrderNotFound " ORDER001 "` even though the trimmed code `"ORDER001"`
matches the sample order, contradicting the claim that every input
string, including scan-source input, is looked up after trimming. -/
theorem C5_counterexample :
    (step true orderScanState (Action.scannerDetect " ORDER001 ")).2 =
      Outcome.orderNotFound " ORDER001 " ∧
    (step true orderScanState (Action.scannerDetect " ORDER001 ")).1.app.currentOrder
      = none ∧
    jsTrim " ORDER001 " = "ORDER001" ∧
    sampleDb.orders.find? (fun o => o.orderId == jsTrim " ORDER001 ") =
      some sampleOrder := by
  refine ⟨by decide, by decide, by decide, by decide⟩

/-- C5 (amended): manual-entry submission trims the input before the
lookup, while scan-source codes are looked up exactly as delivered;
the lookup is by exact `orderId` equality against `Database.orders`, and
when no order matches the (manual: trimmed) code the outcome is
`OrderNotFound` and the machine remains on the order-selection screen. -/
theorem C5_order_lookup (cam : Bool) (fs : FullState) (s code : String)
    (hscreen : fs.app.screen = Screen.orderScan)
    (hs : jsTrim s ≠ "")
    (hmanual : fs.app.db.orders.find? (fun o => o.orderId == jsTrim s) = none)
    (hactive : fs.quaggaActive = true)
    (hcode : code ≠ "")
    (hscan : fs.app.db.orders.find? (fun o => o.orderId == code) = none) :
    ((step cam fs (Action.manualOrder s)).2 = Outcome.orderNotFound (jsTrim s) ∧
     (step cam fs (Action.manualOrder s)).1.app.screen = Screen.orderScan) ∧
    ((step cam fs (Action.scannerDetect code)).2 = Outcome.orderNotFound code ∧
     (step cam fs (Action.scannerDetect code)).1.app.screen = Screen.orderScan) := by
  constructor
  · simp only [step, hscreen, if_pos]
    rw [if_neg (by simp [hs])]
    unfold handleOrderDetected stopScanner
    dsimp only
    rw [hmanual]
    unfold startScanner
    by_cases hcam : cam = true
    · simp [hcam]
    · simp [hcam]
  · simp only [step, hactive]
    rw [if_neg (by simp)]
    rw [if_neg (by simp [hcode])]
    rw [hscreen]
    unfold handleOrderDetected stopScanner
    dsimp only
    rw [hscan]
    unfold startScanner
    by_cases hcam : cam = true
    · simp [hcam]
    · simp [hcam]

/-- C5 witness: the amended lookup behavior at the concrete
order-selection state, with a manual code `" NOPE "` and a scanner code
`" ORDER001 "`. -/
theorem C5_order_lookup_witness :
    orderScanState.app.screen = Screen.orderScan ∧
    (step true orderScanState (Action.manualOrder " NOPE ")).2 =
      Outcome.orderNotFound (jsTrim " NOPE ") :=
  ⟨rfl,
    (C5_order_lookup true orderScanState " NOPE " " ORDER001 " rfl (by decide)
      (by decide) rfl (by decide) (by decide)).1.1⟩

/-! ## C6: duplicate part submissions -/

/-- C6 counterexample: the claim quantifies over every part code, but for
a code that does not belong to the order the second submission yields
`PartNotInOrder`, not `DuplicatePart`: submitting `"NOPE"` twice against
the sample order leaves the state unchanged and alerts `PartNotInOrder`
both times. -/
theorem C6_counterexample :
    (step true freshPartScanState (Action.manualPart "NOPE")).1 = freshPartScanState ∧
    (step true (step true freshPartScanState (Action.manualPart "NOPE")).1
        (Action.manualPart "NOPE")).2 = Outcome.partNotInOrder "NOPE" ∧
    (step true (step true freshPartScanState (Action.manualPart "NOPE")).1
        (Action.manualPart "NOPE")).2 ≠ Outcome.duplicatePart "NOPE" := by
  refine ⟨by decide, by decide, by decide⟩

/-- C6 (amended): for every part code whose first submission in
`ScanningParts` is accepted (nonempty after trimming, not yet scanned,
and belonging to `currentOrder.parts`) and does not complete the order,
submitting the same code a second time yields `DuplicatePart` and leaves
the state — in particular the cardinality of `scannedParts` — unchanged. -/
theorem C6_duplicate_on_second (cam : Bool) (fs : FullState) (o : Order) (p : String)
    (hscreen : fs.app.screen = Screen.partScan)
    (hord : fs.app.currentOrder = some o)
    (hne : jsTrim p ≠ "")
    (hnew : fs.app.scannedParts.contains (jsTrim p) = false)
    (hin : o.parts.contains (jsTrim p) = true)
    (hincomplete : fs.app.scannedParts.length + 1 ≠ o.parts.length) :
    ((step cam fs (Action.manualPart p)).1.app.screen = Screen.partScan ∧
     (step cam fs (Action.manualPart p)).1.app.scannedParts =
       fs.app.scannedParts ++ [jsTrim p]) ∧
    ((step cam (step cam fs (Action.manualPart p)).1 (Action.manualPart p)).2 =
       Outcome.duplicatePart (jsTrim p) ∧
     (step cam (step cam fs (Action.manualPart p)).1 (Action.manualPart p)).1 =
       (step cam fs (Action.manualPart p)).1) := by
  have hstep1 : step cam fs (Action.manualPart p) =
      ({ fs with app := { fs.app with
          scannedParts := fs.app.scannedParts ++ [jsTrim p] } }, Outcome.silent) := by
    simp only [step, hscreen, if_pos]
    rw [if_neg (by simp [hne])]
    unfold handlePartDetected
    dsimp only
    rw [jsTrim_idem]
    rw [if_neg (by simp [hne])]
    rw [if_neg (by rw [hnew]; simp)]
    rw [hord]
    dsimp only
    rw [if_neg (by rw [hin]; simp)]
    rw [if_neg (by simp [hincomplete])]
    rw [hscreen]
  constructor
  · rw [hstep1]
    exact ⟨hscreen, rfl⟩
  · rw [hstep1]
    simp only [step]
    rw [if_pos (show ({ fs with app := { fs.app with
        scannedParts := fs.app.scannedParts ++ [jsTrim p] } } :
        FullState).app.screen = Screen.partScan from hscreen)]
    rw [if_neg (by simp [hne])]
    unfold handlePartDetected
    dsimp only
    rw [jsTrim_idem]
    rw [if_neg (by simp [hne])]
    rw [if_pos (by simp [List.contains_eq_any_beq, List.any_append])]
    exact ⟨rfl, rfl⟩

/-- C6 witness: the amended duplicate behavior at the concrete fresh
part-scan state with part code `"PART001"`. -/
theorem C6_duplicate_on_second_witness :
    freshPartScanState.app.screen = Screen.partScan ∧
    (step true (step true freshPartScanState (Action.manualPart "PART001")).1
        (Action.manualPart "PART001")).2 =
      Outcome.duplicatePart (jsTrim "PART001") :=
  ⟨rfl,
    (C6_duplicate_on_second true freshPartScanState sampleOrder "PART001" rfl rfl
      (by decide) (by decide) (by decide) (by decide)).2.1⟩

/-! ## C7: login/logout and the database frame -/

/-- C7: for every name that is non-empty after trimming, the login click
succeeds without an alert, sets and persists the session user and shows
the home screen; a subsequent logout click clears the in-memory and
persisted session user and returns to the login screen while leaving the
in-memory database and the persisted database exactly as they were. -/
theorem C7_login_logout (cam : Bool) (fs : FullState) (name : String)
    (hscreen : fs.app.screen = Screen.login)
    (hname : jsTrim name ≠ "") :
    (step cam fs (Action.loginSubmit name)).2 = Outcome.silent ∧
    (step cam fs (Action.loginSubmit name)).1.app.user = some (jsTrim name) ∧
    (step cam fs (Action.loginSubmit name)).1.persistedUser = some (jsTrim name) ∧
    (step cam fs (Action.loginSubmit name)).1.app.screen = Screen.home ∧
    ((step cam (step cam fs (Action.loginSubmit name)).1 Action.logoutClick).1.app.user
       = none ∧
     (step cam (step cam fs (Action.loginSubmit name)).1
        Action.logoutClick).1.persistedUser = none ∧
     (step cam (step cam fs (Action.loginSubmit name)).1 Action.logoutClick).1.app.screen
       = Screen.login ∧
     (step cam (step cam fs (Action.loginSubmit name)).1 Action.logoutClick).1.app.db
       = fs.app.db ∧
     (step cam (step cam fs (Action.loginSubmit name)).1 Action.logoutClick).1.persistedDb
       = fs.persistedDb) := by
  have hstep1 : step cam fs (Action.loginSubmit name) =
      ({ fs with
          app := { fs.app with user := some (jsTrim name), screen := Screen.home }
        , persistedUser := some (jsTrim name) },
       Outcome.silent) := by
    simp only [step, hscreen, if_pos]
    unfold doLogin
    dsimp only
    rw [if_neg (by simp [hname])]
  rw [hstep1]
  refine ⟨rfl, rfl, rfl, rfl, ?_⟩
  simp only [step]
  rw [if_pos trivial]
  unfold doLogout
  exact ⟨rfl, rfl, rfl, rfl, rfl⟩

/-- C7 witness: login as `" Dana "` then logout, from the concrete login
state over the sample database. -/
theorem C7_login_logout_witness :
    loginState.app.screen = Screen.login ∧
    (step false (step false loginState (Action.loginSubmit " Dana ")).1
        Action.logoutClick).1.app.db = loginState.app.db :=
  ⟨rfl,
    (C7_login_logout false loginState " Dana " rfl (by decide)).2.2.2.2.2.2.2.1⟩

/-! ## C3: commitPack -/

/-- Packing the first order with a given id keeps it the first match of a
lookup for that id, now with the packed status fields. -/
theorem find_setPackedFirst (oid t : String) (u : Option String)
    (l : List Order) (o : Order)
    (h : l.find? (fun x => x.orderId == oid) = some o) :
    (setPackedFirst oid t u l).find? (fun x => x.orderId == oid) =
      some (packOrder t u o) := by
  induction l with
  | nil => simp [List.find?] at h
  | cons a rest ih =>
    cases hb : (a.orderId == oid) with
    | true =>
      rw [List.find?_cons_of_pos (p := fun x => x.orderId == oid) rest hb] at h
      have ha : a = o := Option.some.inj h
      unfold setPackedFirst
      rw [if_pos hb]
      rw [List.find?_cons_of_pos (p := fun x => x.orderId == oid) rest
        (show ((packOrder t u a).orderId == oid) = true from hb)]
      rw [ha]
    | false =>
      rw [List.find?_cons_of_neg (p := fun x => x.orderId == oid) rest (by simp [hb])] at h
      unfold setPackedFirst
      rw [if_neg (by simp [hb])]
      rw [List.find?_cons_of_neg (p := fun (x : Order) => x.orderId == oid)
        (setPackedFirst oid t u rest) (by simp [hb])]
      exact ih h

/-- C3: the pack button is effective only when the missing-parts list is
empty (otherwise it is rendered disabled and the click changes nothing);
when it is empty, the click sets the current order's status to `Packed`
with `packedAt = t` and `packedBy` the session user, the updated database
entry is the first match for the order's id, the database is persisted,
the home screen is shown, and a subsequent order-code submission for that
id is answered with `OrderAlreadyPacked`. -/
theorem C3_commit_pack (cam : Bool) (fs : FullState) (o : Order) (u t : String)
    (hscreen : fs.app.screen = Screen.summary)
    (hord : fs.app.currentOrder = some o)
    (huser : fs.app.user = some u)
    (hfirst : fs.app.db.orders.find? (fun x => x.orderId == o.orderId) = some o) :
    (missingParts o fs.app.scannedParts ≠ [] →
      step cam fs (Action.markPackedClick t) = (fs, Outcome.silent)) ∧
    (missingParts o fs.app.scannedParts = [] →
      ((step cam fs (Action.markPackedClick t)).1.app.currentOrder =
         some (packOrder t (some u) o) ∧
       (packOrder t (some u) o).status = "Packed" ∧
       (packOrder t (some u) o).packedAt = some t ∧
       (packOrder t (some u) o).packedBy = some u ∧
       (step cam fs (Action.markPackedClick t)).1.app.db.orders.find?
           (fun x => x.orderId == o.orderId) = some (packOrder t (some u) o) ∧
       (step cam fs (Action.markPackedClick t)).1.persistedDb =
         some (step cam fs (Action.markPackedClick t)).1.app.db ∧
       (step cam fs (Action.markPackedClick t)).1.app.screen = Screen.home ∧
       (handleOrderDetected cam (step cam fs (Action.markPackedClick t)).1
           o.orderId).2 = Outcome.orderAlreadyPacked)) := by
  constructor
  · intro hmiss
    simp only [step, hscreen, if_pos]
    unfold doMarkPacked
    rw [hord]
    dsimp only
    rw [if_neg (by simp [List.isEmpty_iff, hmiss])]
  · intro hmiss
    have hstep : step cam fs (Action.markPackedClick t) =
        ({ fs with
            app := { fs.app with
              db := Database.mk (setPackedFirst o.orderId t (some u) fs.app.db.orders)
            , currentOrder := some (packOrder t (some u) o)
            , screen := Screen.home }
          , persistedDb :=
              some (Database.mk (setPackedFirst o.orderId t (some u) fs.app.db.orders)) },
         Outcome.packedOk) := by
      simp only [step, hscreen, if_pos]
      unfold doMarkPacked
      rw [hord]
      dsimp only
      rw [if_pos (by simp [List.isEmpty_iff, hmiss])]
      rw [huser]
    rw [hstep]
    have hfind := find_setPackedFirst o.orderId t (some u) fs.app.db.orders o hfirst
    refine ⟨rfl, rfl, rfl, rfl, hfind, rfl, rfl, ?_⟩
    unfold handleOrderDetected
    dsimp only
    rw [hfind]
    dsimp only
    rw [if_pos (show (((packOrder t (some u) o).status == "Packed") = true) by
      simp [packOrder])]

/-- C3 witness: packing the sample order from the concrete summary state
at a fixed timestamp, then re-submitting its order code. -/
theorem C3_commit_pack_witness :
    summaryState.app.screen = Screen.summary ∧
    missingParts sampleOrder summaryState.app.scannedParts = [] ∧
    (handleOrderDetected false
        (step false summaryState (Action.markPackedClick "2026-10-11T00:00:00Z")).1
        sampleOrder.orderId).2 = Outcome.orderAlreadyPacked :=
  ⟨rfl, by decide,
    ((C3_commit_pack false summaryState sampleOrder "Dana" "2026-10-11T00:00:00Z"
        rfl rfl rfl (by decide)).2 (by decide)).2.2.2.2.2.2.2⟩

/-! ## C9: the scan-progress invariant -/

/-- The scan-progress invariant: whenever an order is selected, the
scanned list has no duplicate identifiers and mentions only parts of
that order. -/
def Inv (fs : FullState) : Prop :=
  ∀ o, fs.app.currentOrder = some o →
    fs.app.scannedParts.Nodup ∧ ∀ p ∈ fs.app.scannedParts, p ∈ o.parts

/-- The invariant only depends on `currentOrder` and `scannedParts`. -/
theorem inv_congr {fs fs' : FullState}
    (h1 : fs'.app.currentOrder = fs.app.currentOrder)
    (h2 : fs'.app.scannedParts = fs.app.scannedParts)
    (h : Inv fs) : Inv fs' := by
  intro o ho
  rw [h1] at ho
  rw [h2]
  exact h o ho

/-- A state with an empty scanned list satisfies the invariant. -/
theorem inv_of_nil {fs' : FullState} (h2 : fs'.app.scannedParts = []) :
    Inv fs' := by
  intro o ho
  rw [h2]
  exact ⟨List.nodup_nil, by intro p hp; cases hp⟩

/-- Appending a fresh part of the current order preserves the
invariant. -/
theorem inv_push {fs : FullState} {o : Order} {q : String}
    (hord : fs.app.currentOrder = some o)
    (hinv : Inv fs)
    (hmem : q ∈ o.parts) (hnot : q ∉ fs.app.scannedParts)
    {fs' : FullState}
    (h1 : fs'.app.currentOrder = fs.app.currentOrder)
    (h2 : fs'.app.scannedParts = fs.app.scannedParts ++ [q]) :
    Inv fs' := by
  intro o' ho'
  rw [h1, hord] at ho'
  have ho : o = o' := Option.some.inj ho'
  subst ho
  obtain ⟨hnd, hsub⟩ := hinv o hord
  rw [h2]
  constructor
  · rw [List.nodup_append]
    refine ⟨hnd, List.nodup_singleton q, ?_⟩
    intro a ha hb
    have : a = q := by simpa using hb
    subst this
    exact hnot ha
  · intro p hp
    rcases List.mem_append.mp hp with hp | hp
    · exact hsub p hp
    · have : p = q := by simpa using hp
      subst this
      exact hmem

/-- `handleOrderDetected` preserves the invariant: failures leave the
scan progress untouched; success resets the scanned list. -/
theorem inv_handleOrderDetected (cam : Bool) (fs : FullState) (code : String)
    (h : Inv fs) : Inv (handleOrderDetected cam fs code).1 := by
  unfold handleOrderDetected
  cases hfind : fs.app.db.orders.find? (fun o => o.orderId == code) with
  | none =>
    dsimp only
    unfold startScanner
    split
    · exact inv_congr rfl rfl h
    · exact inv_congr rfl rfl h
  | some o =>
    dsimp only
    split
    · unfold startScanner
      split
      · exact inv_congr rfl rfl h
      · exact inv_congr rfl rfl h
    · unfold startScanner
      split
      · exact inv_of_nil rfl
      · exact inv_of_nil rfl

/-- `handlePartDetected` preserves the invariant: the only mutation is
appending a code that passed the duplicate and membership guards. -/
theorem inv_handlePartDetected (fs : FullState) (code : String)
    (h : Inv fs) : Inv (handlePartDetected fs code).1 := by
  unfold handlePartDetected
  dsimp only
  by_cases h1 : (jsTrim code == "") = true
  · rw [if_pos h1]; exact h
  · rw [if_neg h1]
    by_cases h2 : (fs.app.scannedParts.contains (jsTrim code)) = true
    · rw [if_pos h2]; exact h
    · rw [if_neg h2]
      cases hord : fs.app.currentOrder with
      | none => exact h
      | some o =>
        dsimp only
        by_cases h3 : (!(o.parts.contains (jsTrim code))) = true
        · rw [if_pos h3]; exact h
        · rw [if_neg h3]
          have hmem : jsTrim code ∈ o.parts := by
            cases hc : o.parts.contains (jsTrim code) with
            | true => simpa using hc
            | false => rw [hc] at h3; simp at h3
          have hnot : jsTrim code ∉ fs.app.scannedParts := by
            intro hmem'
            exact h2 (by simpa using hmem')
          by_cases h4 :
              (((fs.app.scannedParts ++ [jsTrim code]).length == o.parts.length) = true)
          · rw [if_pos h4]
            exact inv_push hord h hmem hnot hord.symm rfl
          · rw [if_neg h4]
            exact inv_push hord h hmem hnot hord.symm rfl

/-- C9: the invariant is preserved by every event, and it bounds the
scanned count by the number of distinct identifiers in the current
order's part list. -/
theorem C9_scan_invariant (cam : Bool) (fs : FullState) (a : Action)
    (h : Inv fs) :
    Inv (step cam fs a).1 ∧
    (∀ o, fs.app.currentOrder = some o →
      fs.app.scannedParts.length ≤ o.parts.dedup.length) := by
  constructor
  · cases a with
    | loginSubmit name =>
      simp only [step]
      split
      · unfold doLogin
        dsimp only
        split
        · exact h
        · exact inv_congr rfl rfl h
      · exact h
    | logoutClick =>
      simp only [step]
      split
      · unfold doLogout
        exact inv_congr rfl rfl h
      · exact h
    | scanOrderClick =>
      simp only [step]
      split
      · unfold startScanner
        split
        · exact inv_congr rfl rfl h
        · exact inv_congr rfl rfl h
      · exact h
    | importClick =>
      simp only [step]
      split
      · exact inv_congr rfl rfl h
      · exact h
    | dbClick =>
      simp only [step]
      split
      · exact inv_congr rfl rfl h
      · exact h
    | backFromDb =>
      simp only [step]
      split
      · exact inv_congr rfl rfl h
      · exact h
    | backFromImport =>
      simp only [step]
      split
      · exact inv_congr rfl rfl h
      · exact h
    | loadSampleClick =>
      simp only [step]
      split
      · exact inv_congr rfl rfl h
      · exact h
    | csvLoaded rows =>
      simp only [step]
      split
      · exact inv_congr rfl rfl h
      · exact h
    | manualOrder s =>
      simp only [step]
      split
      · split
        · exact h
        · exact inv_handleOrderDetected cam (stopScanner fs) (jsTrim s)
            (inv_congr rfl rfl h)
      · exact h
    | cancelOrderScan =>
      simp only [step]
      split
      · exact inv_congr rfl rfl h
      · exact h
    | manualPart s =>
      simp only [step]
      split
      · split
        · exact h
        · exact inv_handlePartDetected fs (jsTrim s) h
      · exact h
    | cancelParts =>
      simp only [step]
      split
      · unfold startScanner
        split
        · exact inv_congr rfl rfl h
        · exact inv_congr rfl rfl h
      · exact h
    | backFromSummary =>
      simp only [step]
      split
      · exact inv_congr rfl rfl h
      · exact h
    | markPackedClick t =>
      simp only [step]
      split
      · unfold doMarkPacked
        cases hord : fs.app.currentOrder with
        | none => exact h
        | some o =>
          dsimp only
          split
          · intro o' ho'
            have ho2 : packOrder t fs.app.user o = o' := Option.some.inj ho'
            obtain ⟨hnd, hsub⟩ := h o hord
            subst ho2
            exact ⟨hnd, fun p hp => hsub p hp⟩
          · exact h
      · exact h
    | scannerDetect code =>
      simp only [step]
      split
      · exact h
      · split
        · exact h
        · split
          · exact inv_handleOrderDetected cam (stopScanner fs) code
              (inv_congr rfl rfl h)
          · exact inv_handlePartDetected (stopScanner fs) code
              (inv_congr rfl rfl h)
          · exact inv_congr rfl rfl h
  · intro o ho
    obtain ⟨hnd, hsub⟩ := h o ho
    have hsubd : fs.app.scannedParts ⊆ o.parts.dedup := fun p hp =>
      List.mem_dedup.mpr (hsub p hp)
    exact (List.subperm_of_subset hnd hsubd).length_le

/-- C9 witness: the invariant holds at the concrete home state (no order
selected) and is carried through one event. -/
theorem C9_scan_invariant_witness :
    Inv (step true homeState Action.scanOrderClick).1 :=
  (C9_scan_invariant true homeState Action.scanOrderClick
    (fun _ ho => nomatch ho)).1

/-! ## C10: an import whose rows are all skipped -/

/-- A row whose ids do not resolve leaves the accumulated orders
unchanged. -/
theorem processRow_skip (ok pk ck pjk dk : Option String)
    (orders : List Order) (row : Row)
    (h : resolveIds ok pk row = none) :
    processRow ok pk ck pjk dk orders row = orders := by
  unfold processRow
  rw [h]

/-- Folding only skipped rows returns the initial accumulator. -/
theorem foldl_processRow_skip (ok pk ck pjk dk : Option String)
    (rows : List Row) (init : List Order)
    (h : ∀ row ∈ rows, resolveIds ok pk row = none) :
    rows.foldl (processRow ok pk ck pjk dk) init = init := by
  induction rows generalizing init with
  | nil => rfl
  | cons r rest ih =>
    rw [List.foldl_cons]
    rw [processRow_skip ok pk ck pjk dk init r (h r (List.mem_cons_self r rest))]
    exact ih init (fun row hr => h row (List.mem_cons_of_mem r hr))

/-- C10: when an import parses but no row yields a resolvable, non-empty
order id and part id after trimming, the normalizer produces a database
with an empty order sequence, and that empty database replaces the
previous one wholesale in memory and in the persisted mirror — whatever
orders were held before are gone. -/
theorem C10_import_all_skipped (cam : Bool) (fs : FullState) (rows : List Row)
    (hscreen : fs.app.screen = Screen.importCsv)
    (hskip : ∀ row ∈ rows,
      resolveIds (importOrderKey rows) (importPartKey rows) row = none) :
    (step cam fs (Action.csvLoaded rows)).1.app.db = { orders := [] } ∧
    (step cam fs (Action.csvLoaded rows)).1.persistedDb = some { orders := [] } ∧
    (step cam fs (Action.csvLoaded rows)).1.app.screen = Screen.home := by
  have hnorm : normalizeRows rows = { orders := [] } := by
    unfold normalizeRows
    rw [foldl_processRow_skip _ _ _ _ _ rows [] hskip]
  refine ⟨?_, ?_, ?_⟩ <;> simp [step, hscreen, hnorm]

/-- C10 witness: a parsed file with one row whose first column is blank
and whose headers match none of the recognized column names; the row is
skipped and the import wipes the sample database. -/
theorem C10_import_all_skipped_witness :
    homeStateImport.app.screen = Screen.importCsv ∧
    (step true homeStateImport
        (Action.csvLoaded [[("foo", ""), ("bar", "P1")]])).1.app.db =
      { orders := [] } :=
  ⟨rfl,
    (C10_import_all_skipped true homeStateImport [[("foo", ""), ("bar", "P1")]]
      rfl (by decide)).1⟩

end Barcoda
